import Mathlib

/-!
Verification of the Ruby web application planning and CRUD-hook logic.

The TypeScript source is shallowly embedded: React component state becomes
explicit record types, remote calls become explicit outcome parameters, and
database writes become explicit effect records returned by each function.
JavaScript truthiness on optional values is modelled with Option types
(a missing or empty string is falsy, an object or array is truthy whenever
present).
-/

namespace Ruby

/-- A project overview as produced by the project-overview LLM call
(fields of rubyProjectOverviewSchema, plus the optional target_concepts
field read defensively by the detail view). -/
structure Overview where
  response : String
  project_analysis : String
  project_type : String
  recommended_duration : Nat
  difficulty_assessment : String
  learning_trajectory : String
  target_concepts : Option (List String)
deriving DecidableEq, Repr

/-- One week of a weekly breakdown. The fields that the hooks read through
JavaScript default operators are Options, so that the defaulting in the
source stays visible in the embedding. -/
structure BreakdownWeek where
  week : Nat
  title : String
  main_goal : String
  concepts : Option (List String)
  deliverables : Option (List String)
  estimated_sessions : Option Nat
deriving DecidableEq, Repr

/-- A milestone of the breakdown document (key_milestones entries). -/
structure Milestone where
  title : String
  description : String
  target_week : Nat
deriving DecidableEq, Repr

/-- A weekly-breakdown document as produced by the weekly-breakdown LLM call
(fields of rubyWeeklyBreakdownSchema; key_milestones is read through the
optional-chaining operator in the detail view and is therefore an Option). -/
structure WeeklyBreakdownDoc where
  response : String
  weekly_breakdown : List BreakdownWeek
  success_criteria : List String
  key_milestones : Option (List Milestone)
deriving DecidableEq, Repr

/-- The persisted master_plan JSON field of a project row. The overview and
breakdown keys are absent or hold a document; complete is absent or holds a
boolean; the two timestamps are absent or hold a time value; extraKeys counts
any further keys (including keys holding falsy values), so that the
Object.keys length test of the source is expressible. -/
structure MasterPlanVal where
  overview : Option Overview
  breakdown : Option WeeklyBreakdownDoc
  complete : Option Bool
  overview_generated_at : Option Nat
  breakdown_generated_at : Option Nat
  extraKeys : Nat
deriving DecidableEq, Repr

/-- Number of keys of the master_plan object (Object.keys(masterPlan).length). -/
def MasterPlanVal.keysCount (m : MasterPlanVal) : Nat :=
  (if m.overview.isSome then 1 else 0) +
  (if m.breakdown.isSome then 1 else 0) +
  (if m.complete.isSome then 1 else 0) +
  (if m.overview_generated_at.isSome then 1 else 0) +
  (if m.breakdown_generated_at.isSome then 1 else 0) +
  m.extraKeys

/-- Truthiness of masterPlan.complete (present and true). -/
def MasterPlanVal.completeTruthy (m : MasterPlanVal) : Bool :=
  m.complete == some true

/-- The hasValidPlanData test of the source:
masterPlan.overview || masterPlan.breakdown || masterPlan.complete. -/
def MasterPlanVal.hasValidPlanData (m : MasterPlanVal) : Bool :=
  m.overview.isSome || m.breakdown.isSome || m.completeTruthy

/-- The planning step of the project detail view. -/
inductive PlanningStep where
  | overview
  | overviewReview
  | breakdown
  | complete
deriving DecidableEq, Repr

/-- The local planning state of the project detail view: the planning step,
the two loaded documents, the error and loading flags, the two
hasGenerated refs and the editable duration. -/
structure PlanState where
  planningStep : PlanningStep
  projectOverview : Option Overview
  weeklyBreakdown : Option WeeklyBreakdownDoc
  error : Option String
  isLoading : Bool
  hasGeneratedOverview : Bool
  hasGeneratedBreakdown : Bool
  editableDuration : Nat
deriving DecidableEq, Repr

/-- The detail-view state right after the reset that runs when the tracked
project id changes: both hasGenerated refs false, no documents, no error,
not loading. -/
def initialPlanState : PlanState :=
  { planningStep := .overview
    projectOverview := none
    weeklyBreakdown := none
    error := none
    isLoading := false
    hasGeneratedOverview := false
    hasGeneratedBreakdown := false
    editableDuration := 1 }

/-- loadExistingPlan of the project detail view, run on mount over the
freshly reset state: resumes the planning flow from the persisted
master_plan field of the project (duration_weeks is the fallback used when
the stored recommended_duration is falsy). -/
def loadExistingPlan (master_plan : Option MasterPlanVal) (duration_weeks : Nat) :
    PlanState :=
  match master_plan with
  | some masterPlan =>
    match masterPlan.overview with
    | some o =>
      let st :=
        { initialPlanState with
            projectOverview := some o
            editableDuration :=
              if o.recommended_duration = 0 then duration_weeks
              else o.recommended_duration
            hasGeneratedOverview := true }
      if masterPlan.breakdown.isSome && masterPlan.completeTruthy then
        { st with
            weeklyBreakdown := masterPlan.breakdown
            hasGeneratedBreakdown := true
            planningStep := .complete }
      else
        { st with planningStep := .overviewReview }
    | none =>
      if 0 < masterPlan.keysCount then
        if masterPlan.hasValidPlanData then
          { initialPlanState with
              hasGeneratedOverview := true
              planningStep := .overview }
        else
          { initialPlanState with planningStep := .overview }
      else
        { initialPlanState with planningStep := .overview }
  | none => { initialPlanState with planningStep := .overview }

/-- Whether the persisted master_plan has an overview (truthy overview key). -/
def mpHasOverview : Option MasterPlanVal → Bool
  | some m => m.overview.isSome
  | none => false

/-- Whether the persisted master_plan has a breakdown together with a truthy
complete flag. -/
def mpIsComplete : Option MasterPlanVal → Bool
  | some m => m.breakdown.isSome && m.completeTruthy
  | none => false

/-- The overview stored in the persisted master_plan, if any. -/
def mpOverviewOf : Option MasterPlanVal → Option Overview
  | some m => m.overview
  | none => none

/-- The breakdown stored in the persisted master_plan, if any. -/
def mpBreakdownOf : Option MasterPlanVal → Option WeeklyBreakdownDoc
  | some m => m.breakdown
  | none => none

/-- Outcome of an awaited remote HTTP call: a response with ok = true
carrying the parsed value, or a response with ok = false. -/
inductive HttpResult (α : Type) where
  | ok (value : α)
  | notOk
deriving DecidableEq, Repr

/-- An entry of the milestones_reached column, built from a key_milestones
entry of the breakdown document. -/
structure MilestoneReached where
  title : String
  description : String
  target_week : Nat
  completed : Bool
deriving DecidableEq, Repr

/-- One update issued against the projects table: the id filter plus the
columns the update sets (a none column is not part of the update). -/
structure ProjectsUpdate where
  idEq : String
  master_plan : Option MasterPlanVal
  project_type : Option String
  difficulty_level : Option String
  duration_weeks : Option Nat
  learning_goal : Option String
  status : Option String
  updated_at : Option Nat
  target_concepts : Option (List String)
  total_sessions : Option Nat
  milestones_reached : Option (List MilestoneReached)
deriving DecidableEq, Repr

/-- Truthy non-empty master_plan object:
project.master_plan && typeof project.master_plan === "object" &&
Object.keys(project.master_plan).length > 0. -/
def mpNonEmptyObject : Option MasterPlanVal → Bool
  | some m => decide (0 < m.keysCount)
  | none => false

/-- The hasValidPlanData test lifted to the optional master_plan field. -/
def mpValidData : Option MasterPlanVal → Bool
  | some m => m.hasValidPlanData
  | none => false

/-- Existing valid data in the database: a non-empty master_plan object with
overview, breakdown or a truthy complete flag. -/
def mpHasValidExistingData (mp : Option MasterPlanVal) : Bool :=
  mpNonEmptyObject mp && mpValidData mp

/-- generateProjectOverview of the project detail view. The fetch of the
project-overview API is the resp parameter; the returned list holds the
updates issued against the projects table (the update that saves the
overview is issued only on an ok response; a failing save is only logged
and does not change the local state). -/
def generateProjectOverview (st : PlanState) (master_plan : Option MasterPlanVal)
    (projectId : String) (isReplay : Bool) (resp : HttpResult Overview)
    (now : Nat) : PlanState × List ProjectsUpdate :=
  if (!isReplay && st.hasGeneratedOverview) || st.isLoading then (st, [])
  else if !isReplay && mpNonEmptyObject master_plan && mpValidData master_plan then
    ({ st with hasGeneratedOverview := true }, [])
  else
    let st1 := { st with hasGeneratedOverview := true, isLoading := true, error := none }
    match resp with
    | .notOk =>
      ({ st1 with
          error := some "Failed to generate project overview"
          hasGeneratedOverview := false
          isLoading := false }, [])
    | .ok overview =>
      let st2 :=
        { st1 with
            projectOverview := some overview
            editableDuration :=
              if overview.recommended_duration = 0 then 1
              else overview.recommended_duration
            planningStep := .overviewReview
            isLoading := false }
      (st2,
        [{ idEq := projectId
           master_plan := some
             { overview := some overview
               breakdown := none
               complete := none
               overview_generated_at := some now
               breakdown_generated_at := none
               extraKeys := 0 }
           project_type := some overview.project_type
           difficulty_level := some overview.difficulty_assessment
           duration_weeks := some overview.recommended_duration
           learning_goal := some overview.learning_trajectory
           status := some "planning"
           updated_at := some now
           target_concepts := none
           total_sessions := none
           milestones_reached := none }])

/-- The master_plan object with no keys, produced by spreading a null
master_plan value. -/
def emptyMasterPlanVal : MasterPlanVal :=
  { overview := none
    breakdown := none
    complete := none
    overview_generated_at := none
    breakdown_generated_at := none
    extraKeys := 0 }

/-- milestonesReached of generateWeeklyBreakdown:
breakdown.key_milestones?.map(...) || []. -/
def milestonesReachedOf (b : WeeklyBreakdownDoc) : List MilestoneReached :=
  match b.key_milestones with
  | none => []
  | some ms =>
    ms.map fun m =>
      { title := m.title
        description := m.description
        target_week := m.target_week
        completed := false }

/-- generateWeeklyBreakdown of the project detail view. The fetch of the
weekly-breakdown API is the resp parameter and the select that re-reads the
persisted master_plan is the fetchCur parameter. calculateProjectMetadata is
imported from a lib/schemas version that is not among the source files, so
the total_sessions number it yields is taken as the totalSessions input.
The returned list holds the updates issued against the projects table. -/
def generateWeeklyBreakdown (st : PlanState) (projectId : String) (isReplay : Bool)
    (resp : HttpResult WeeklyBreakdownDoc)
    (fetchCur : HttpResult (Option MasterPlanVal))
    (totalSessions : Nat) (now : Nat) : PlanState × List ProjectsUpdate :=
  match st.projectOverview with
  | none => (st, [])
  | some overview =>
    if (!isReplay && st.hasGeneratedBreakdown) || st.isLoading then (st, [])
    else
      let st1 :=
        { st with
            hasGeneratedBreakdown := true
            isLoading := true
            error := none
            planningStep := .breakdown }
      let updatedOverview := { overview with recommended_duration := st.editableDuration }
      match resp with
      | .notOk =>
        ({ st1 with
            error := some "Failed to generate weekly breakdown"
            hasGeneratedBreakdown := false
            planningStep := .overviewReview
            isLoading := false }, [])
      | .ok breakdown =>
        let st2 :=
          { st1 with
              weeklyBreakdown := some breakdown
              planningStep := .complete
              isLoading := false }
        match fetchCur with
        | .notOk => (st2, [])
        | .ok curMp =>
          let cur := curMp.getD emptyMasterPlanVal
          let completeMasterPlan :=
            { cur with
                breakdown := some breakdown
                breakdown_generated_at := some now
                complete := some true }
          (st2,
            [{ idEq := projectId
               master_plan := some completeMasterPlan
               project_type := none
               difficulty_level := none
               duration_weeks := some updatedOverview.recommended_duration
               learning_goal := none
               status := some "planning"
               updated_at := some now
               target_concepts := some (updatedOverview.target_concepts.getD [])
               total_sessions := some totalSessions
               milestones_reached := some (milestonesReachedOf breakdown) }])

/-- JavaScript truthiness of an optional string field: present and
non-empty. -/
def jsTruthyStr : Option String → Bool
  | some s => !(s = "")
  | none => false

/-- The generation step of the planning modal. -/
inductive GenStep where
  | overview
  | breakdown
  | complete
deriving DecidableEq, Repr

/-- A possibly partial overview object while useObject streams it: the
project_type field may not have arrived yet. -/
structure PartialOverview where
  project_type : Option String
  recommended_duration : Option Nat
deriving DecidableEq, Repr

/-- A possibly partial breakdown object while useObject streams it. -/
structure PartialBreakdown where
  weekly_breakdown : Option (List BreakdownWeek)
deriving DecidableEq, Repr

/-- The state of the planning modal: its step, the two accepted documents,
the two useObject result objects, and whether each of the two generation
requests has been submitted. -/
structure ModalState where
  step : GenStep
  projectOverview : Option PartialOverview
  weeklyBreakdown : Option PartialBreakdown
  overviewObj : Option PartialOverview
  breakdownObj : Option PartialBreakdown
  overviewSubmitted : Bool
  breakdownSubmitted : Bool
deriving DecidableEq, Repr

/-- The initial modal state. -/
def initModal : ModalState :=
  { step := .overview
    projectOverview := none
    weeklyBreakdown := none
    overviewObj := none
    breakdownObj := none
    overviewSubmitted := false
    breakdownSubmitted := false }

/-- An event of the planning modal: the open effect firing (propsOk is the
truthiness of isOpen, projectName and projectDescription), the overview
stream delivering an object, the effect watching the overview object, the
breakdown stream delivering an object, and the effect watching the
breakdown object. A stream can deliver an object only once the matching
request was submitted. -/
inductive ModalEvent where
  | openEffect (propsOk : Bool)
  | overviewChunk (o : PartialOverview)
  | overviewObjectEffect
  | breakdownChunk (b : PartialBreakdown)
  | breakdownObjectEffect
deriving DecidableEq, Repr

/-- One transition of the planning modal. -/
def modalStep (s : ModalState) (e : ModalEvent) : ModalState :=
  match e with
  | .openEffect propsOk =>
    if propsOk && s.step == .overview then
      { s with
          projectOverview := none
          weeklyBreakdown := none
          overviewSubmitted := true }
    else s
  | .overviewChunk o =>
    if s.overviewSubmitted then { s with overviewObj := some o } else s
  | .overviewObjectEffect =>
    match s.overviewObj with
    | some o =>
      if jsTruthyStr o.project_type && s.step == .overview then
        { s with
            projectOverview := some o
            step := .breakdown
            breakdownSubmitted := true }
      else s
    | none => s
  | .breakdownChunk b =>
    if s.breakdownSubmitted then { s with breakdownObj := some b } else s
  | .breakdownObjectEffect =>
    match s.breakdownObj with
    | some b =>
      if b.weekly_breakdown.isSome && s.step == .breakdown then
        { s with weeklyBreakdown := some b, step := .complete }
      else s
    | none => s

/-- The modal state after a sequence of events from the initial state. -/
def runModal (evs : List ModalEvent) : ModalState :=
  evs.foldl modalStep initModal

/-- Invariant of the planning modal: a delivered overview object implies the
overview request was submitted, and a submitted breakdown request implies the
overview request was submitted. -/
def ModalInv (s : ModalState) : Prop :=
  (s.overviewObj.isSome → s.overviewSubmitted = true) ∧
  (s.breakdownSubmitted = true → s.overviewSubmitted = true)

/-- A sample overview document, used to instantiate proved statements. -/
def sampleOverview : Overview :=
  { response := "hi"
    project_analysis := "fun"
    project_type := "game"
    recommended_duration := 2
    difficulty_assessment := "beginner"
    learning_trajectory := "loops then events"
    target_concepts := none }

/-- A sample breakdown week, used to instantiate proved statements. -/
def sampleWeek (n : Nat) : BreakdownWeek :=
  { week := n
    title := "build"
    main_goal := "learn loops"
    concepts := some ["loops", "events"]
    deliverables := some ["demo"]
    estimated_sessions := some 3 }

/-- A sample breakdown document, used to instantiate proved statements. -/
def sampleBreakdownDoc : WeeklyBreakdownDoc :=
  { response := "plan"
    weekly_breakdown := [sampleWeek 1, sampleWeek 2]
    success_criteria := ["a", "b", "c"]
    key_milestones := none }

/-- A sample persisted master_plan holding an overview, as written by the
overview generation step. -/
def sampleCur : MasterPlanVal :=
  { overview := some sampleOverview
    breakdown := none
    complete := none
    overview_generated_at := some 3
    breakdown_generated_at := none
    extraKeys := 0 }

/-- A sample detail-view state sitting at the overview-review step. -/
def samplePlanState : PlanState :=
  { initialPlanState with
      projectOverview := some sampleOverview
      planningStep := .overviewReview
      editableDuration := 2 }

/-- A master-plan document in the shape rubyMasterPlanSchema describes (the
argument type of createWeeklyPlansFromMasterPlan). -/
structure MasterPlanDoc where
  response : String
  project_analysis : String
  project_type : String
  recommended_duration : Nat
  difficulty_assessment : String
  learning_trajectory : String
  weekly_breakdown : List BreakdownWeek
  success_criteria : List String
deriving DecidableEq, Repr

/-- The goals JSON object stored on a weekly-plan row. -/
structure WeekGoals where
  main_goal : String
  concepts : List String
  deliverables : List String
deriving DecidableEq, Repr

/-- One row inserted into the weekly_plans table. -/
structure WeeklyPlanInsert where
  project_id : String
  week_number : Nat
  week_title : String
  week_description : String
  learning_objectives : List String
  target_concepts : List String
  attempt_number : Nat
  difficulty_level : String
  status : String
  progress_percentage : Nat
  estimated_sessions : Nat
  goals : WeekGoals
  deliverables : List String
deriving DecidableEq, Repr

/-- The JavaScript default operator on an optional number: v || d is d when
v is absent or zero. -/
def jsOrNat (v : Option Nat) (d : Nat) : Nat :=
  match v with
  | none => d
  | some n => if n = 0 then d else n

/-- The weekly-plan row built from one week of the master plan breakdown. -/
def weekToInsert (projectId : String) (difficulty : String) (w : BreakdownWeek) :
    WeeklyPlanInsert :=
  { project_id := projectId
    week_number := w.week
    week_title := w.title
    week_description := w.main_goal
    learning_objectives := [w.main_goal]
    target_concepts := w.concepts.getD []
    attempt_number := 1
    difficulty_level := difficulty
    status := if w.week = 1 then "current" else "locked"
    progress_percentage := 0
    estimated_sessions := jsOrNat w.estimated_sessions 3
    goals :=
      { main_goal := w.main_goal
        concepts := w.concepts.getD []
        deliverables := w.deliverables.getD [] }
    deliverables := w.deliverables.getD [] }

/-- createWeeklyPlansFromMasterPlan of useWeeklyPlans: throws without an
authenticated user, otherwise builds one insert per breakdown week. -/
def createWeeklyPlansFromMasterPlan (user : Option String) (projectId : String)
    (masterPlan : MasterPlanDoc) : Except String (List WeeklyPlanInsert) :=
  match user with
  | none => .error "User must be authenticated to create weekly plans"
  | some _ =>
    .ok (masterPlan.weekly_breakdown.map
      (weekToInsert projectId masterPlan.difficulty_assessment))

/-- A row of the projects table, with the fields the delete and update
filters read. -/
structure ProjectRow where
  id : String
  user_id : String
  title : String
deriving DecidableEq, Repr

/-- The filter of a projects-table mutation: .eq("id", idEq) and
.eq("user_id", userIdEq). -/
structure ProjectsFilter where
  idEq : String
  userIdEq : String
deriving DecidableEq, Repr

/-- deleteProject of useProjects. The result of the remote delete is the
remoteError parameter. On success it returns the list of setProjects calls
(first the optimistic removal, on error followed by the rollback), the
filter of the issued remote delete, and the error field of the returned
object; without a user it throws. -/
def deleteProject (user : Option String) (projects : List ProjectRow)
    (projectId : String) (remoteError : Option String) :
    Except String (List (List ProjectRow) × ProjectsFilter × Option String) :=
  match user with
  | none => .error "User must be authenticated to delete projects"
  | some uid =>
    let originalProjects := projects
    let optimistic := projects.filter fun p => !(p.id == projectId)
    let q : ProjectsFilter := { idEq := projectId, userIdEq := uid }
    match remoteError with
    | some e => .ok ([optimistic, originalProjects], q, some e)
    | none => .ok ([optimistic], q, none)

/-- updateProject of useProjects: throws without a user, otherwise issues an
update carrying the given column assignments, filtered by the project id and
the user id. -/
def updateProject (user : Option String) (projectId : String)
    (updates : List (String × String)) :
    Except String (ProjectsFilter × List (String × String)) :=
  match user with
  | none => .error "User must be authenticated to update projects"
  | some uid => .ok ({ idEq := projectId, userIdEq := uid }, updates)

/-- The argument of createProject, reduced to the fields its row shape
depends on. -/
structure ProjectData where
  title : String
  master_plan : Option MasterPlanVal
deriving DecidableEq, Repr

/-- The row createProject inserts (the fields derived from the input). -/
structure ProjectInsert where
  user_id : String
  title : String
  status : String
  current_week : Nat
deriving DecidableEq, Repr

/-- createProject of useProjects: throws without a user, otherwise inserts a
row owned by the current user. -/
def createProject (user : Option String) (projectData : ProjectData) :
    Except String ProjectInsert :=
  match user with
  | none => .error "User must be authenticated to create projects"
  | some uid =>
    .ok
      { user_id := uid
        title := projectData.title
        status := if projectData.master_plan.isSome then "active" else "planning"
        current_week := if projectData.master_plan.isSome then 1 else 0 }

/-- The effect of a filtered DELETE on the projects table. -/
def runDeleteQuery (db : List ProjectRow) (q : ProjectsFilter) : List ProjectRow :=
  db.filter fun r => !(r.id == q.idEq && r.user_id == q.userIdEq)

/-- The effect of a filtered UPDATE on the projects table (f is the column
assignment). -/
def runUpdateQuery (db : List ProjectRow) (q : ProjectsFilter)
    (f : ProjectRow → ProjectRow) : List ProjectRow :=
  db.map fun r => if r.id == q.idEq && r.user_id == q.userIdEq then f r else r

/-- The largest message_order of a conversation (0 for no messages). -/
def maxOrder (l : List Nat) : Nat := l.foldr max 0

/-- The rows returned by selecting message_order ordered descending with
limit 1: empty for an empty conversation, otherwise the single largest
order. -/
def selectTopOrder (orders : List Nat) : List Nat :=
  match orders with
  | [] => []
  | _ => [maxOrder orders]

/-- The message_order sendMessage of useConversations assigns, given the
orders of the existing messages of the conversation. -/
def sendMessageOrder (orders : List Nat) : Nat :=
  match selectTopOrder orders with
  | m :: _ => m + 1
  | [] => 1

/-- A goal-setting conversation row, reduced to what addMessage reads. -/
structure GoalConversation where
  id : String
  total_messages : Nat
deriving DecidableEq, Repr

/-- addMessage of useGoalSettingConversation: throws without an active
conversation, otherwise returns the message_order given to the inserted
message and the total_messages value written back onto the conversation. -/
def addMessage (conversation : Option GoalConversation) (orders : List Nat) :
    Except String (Nat × Nat) :=
  match conversation with
  | none => .error "No active conversation"
  | some _ =>
    let messageOrder := (selectTopOrder orders).head?.getD 0 + 1
    .ok (messageOrder, messageOrder)

/-- The project_type enumeration of the zod schemas. -/
def validProjectType (s : String) : Bool :=
  ["game", "animation", "interactive_story", "art", "music", "quiz",
    "experiment", "calculator", "data_viz"].contains s

/-- The difficulty enumeration of the zod schemas. -/
def validDifficulty (s : String) : Bool :=
  ["beginner", "intermediate", "advanced"].contains s

/-- rubyProjectOverviewSchema as a validator: enum fields plus
recommended_duration min 1 max 4. -/
def rubyProjectOverviewSchema (o : Overview) : Bool :=
  validProjectType o.project_type &&
  decide (1 ≤ o.recommended_duration ∧ o.recommended_duration ≤ 4) &&
  validDifficulty o.difficulty_assessment

/-- A week as constrained inside rubyMasterPlanSchema: all fields required,
estimated_sessions min 1 max 7 (no bounds on week, concepts or
deliverables). -/
def masterWeekCheck (w : BreakdownWeek) : Bool :=
  w.concepts.isSome && w.deliverables.isSome &&
  (match w.estimated_sessions with
   | some n => decide (1 ≤ n ∧ n ≤ 7)
   | none => false)

/-- rubyMasterPlanSchema as a validator: enum fields, recommended_duration
min 1 max 4, and every breakdown week well formed. -/
def rubyMasterPlanSchema (m : MasterPlanDoc) : Bool :=
  validProjectType m.project_type &&
  decide (1 ≤ m.recommended_duration ∧ m.recommended_duration ≤ 4) &&
  validDifficulty m.difficulty_assessment &&
  m.weekly_breakdown.all masterWeekCheck

/-- A week as constrained inside rubyWeeklyBreakdownSchema: week min 1 max 4,
concepts min 2 max 5, deliverables min 1 max 4, estimated_sessions min 1
max 7. -/
def breakdownWeekCheck (w : BreakdownWeek) : Bool :=
  decide (1 ≤ w.week ∧ w.week ≤ 4) &&
  (match w.concepts with
   | some c => decide (2 ≤ c.length ∧ c.length ≤ 5)
   | none => false) &&
  (match w.deliverables with
   | some d => decide (1 ≤ d.length ∧ d.length ≤ 4)
   | none => false) &&
  (match w.estimated_sessions with
   | some n => decide (1 ≤ n ∧ n ≤ 7)
   | none => false)

/-- rubyWeeklyBreakdownSchema as a validator: 1 to 4 weeks, each well
formed, and 3 to 6 success_criteria entries. -/
def rubyWeeklyBreakdownSchema (b : WeeklyBreakdownDoc) : Bool :=
  decide (1 ≤ b.weekly_breakdown.length ∧ b.weekly_breakdown.length ≤ 4) &&
  b.weekly_breakdown.all breakdownWeekCheck &&
  decide (3 ≤ b.success_criteria.length ∧ b.success_criteria.length ≤ 6)

/-- The request body of the generate-weekly-breakdown route: each field may
be missing from the posted JSON. -/
structure BreakdownRequest where
  projectName : Option String
  projectDescription : Option String
  projectOverview : Option Overview
deriving DecidableEq, Repr

/-- The body of a response of the generate-weekly-breakdown route: a JSON
error object or the generated document. -/
inductive RouteBody where
  | errMsg (msg : String)
  | doc (d : WeeklyBreakdownDoc)
deriving DecidableEq, Repr

/-- A response of the generate-weekly-breakdown route. -/
structure RouteResponse where
  status : Nat
  body : RouteBody
deriving DecidableEq, Repr

/-- generateObject with rubyWeeklyBreakdownSchema: a raw model output (none
for a failed call) is returned only when it conforms to the schema, and any
other outcome throws. -/
def generateObjectResult (raw : Option WeeklyBreakdownDoc) :
    Except Unit WeeklyBreakdownDoc :=
  match raw with
  | none => .error ()
  | some d => if rubyWeeklyBreakdownSchema d then .ok d else .error ()

/-- The POST handler of /api/generate-weekly-breakdown: body is the parsed
request JSON (none when parsing throws) and llmRaw the hosted model
outcome. -/
def generateWeeklyBreakdownPOST (body : Option BreakdownRequest)
    (llmRaw : Option WeeklyBreakdownDoc) : RouteResponse :=
  match body with
  | none => { status := 500, body := .errMsg "Failed to generate weekly breakdown" }
  | some b =>
    if !jsTruthyStr b.projectName || !jsTruthyStr b.projectDescription ||
        !b.projectOverview.isSome then
      { status := 400
        body := .errMsg "Project name, description, and overview are required" }
    else
      match generateObjectResult llmRaw with
      | .error _ =>
        { status := 500, body := .errMsg "Failed to generate weekly breakdown" }
      | .ok d => { status := 200, body := .doc d }

/-- A sample master-plan document, used to instantiate proved statements. -/
def sampleMasterPlanDoc : MasterPlanDoc :=
  { response := "plan"
    project_analysis := "fun"
    project_type := "game"
    recommended_duration := 2
    difficulty_assessment := "beginner"
    learning_trajectory := "loops then events"
    weekly_breakdown := [sampleWeek 1, sampleWeek 2]
    success_criteria := ["a", "b", "c"] }

/-- A request body whose three fields are all present but whose projectName
is the empty string (a falsy value). -/
def emptyNameRequest : BreakdownRequest :=
  { projectName := some ""
    projectDescription := some "Build a maze game"
    projectOverview := some sampleOverview }

/-- Claim C1: on mount the planning flow resumes from the persisted
master_plan field. With an overview and a complete breakdown the step is
"complete" and both documents are loaded; with an overview but no complete
plan the step is "overview-review" and only the overview is loaded; in every
other case the step is "overview" and nothing is loaded. -/
theorem loadExistingPlan_resumes_from_master_plan_C1
    (mp : Option MasterPlanVal) (dw : Nat) :
    (mpHasOverview mp = true → mpIsComplete mp = true →
      (loadExistingPlan mp dw).planningStep = .complete ∧
      (loadExistingPlan mp dw).projectOverview = mpOverviewOf mp ∧
      (loadExistingPlan mp dw).weeklyBreakdown = mpBreakdownOf mp) ∧
    (mpHasOverview mp = true → mpIsComplete mp = false →
      (loadExistingPlan mp dw).planningStep = .overviewReview ∧
      (loadExistingPlan mp dw).projectOverview = mpOverviewOf mp ∧
      (loadExistingPlan mp dw).weeklyBreakdown = none) ∧
    (mpHasOverview mp = false →
      (loadExistingPlan mp dw).planningStep = .overview ∧
      (loadExistingPlan mp dw).projectOverview = none ∧
      (loadExistingPlan mp dw).weeklyBreakdown = none) := by
  refine ⟨?_, ?_, ?_⟩ <;> intro h
  · intro hc
    match mp with
    | none => simp [mpHasOverview] at h
    | some m =>
      match ho : m.overview with
      | none => simp [mpHasOverview, ho] at h
      | some o =>
        have hbc : (m.breakdown.isSome && m.completeTruthy) = true := by
          simpa [mpIsComplete] using hc
        simp [loadExistingPlan, mpOverviewOf, mpBreakdownOf, ho, hbc]
  · intro hc
    match mp with
    | none => simp [mpHasOverview] at h
    | some m =>
      match ho : m.overview with
      | none => simp [mpHasOverview, ho] at h
      | some o =>
        have hbc : (m.breakdown.isSome && m.completeTruthy) = false := by
          simpa [mpIsComplete] using hc
        simp [loadExistingPlan, mpOverviewOf, ho, hbc, initialPlanState]
  · match mp with
    | none => simp [loadExistingPlan, initialPlanState]
    | some m =>
      match ho : m.overview with
      | some o => simp [mpHasOverview, ho] at h
      | none =>
        simp only [loadExistingPlan, ho, initialPlanState]
        split
        · split <;> simp
        · simp

/-- The modal invariant holds initially. -/
theorem modalInv_init : ModalInv initModal := by
  constructor <;> simp [initModal]

/-- The modal invariant is preserved by every event. -/
theorem modalInv_step (s : ModalState) (e : ModalEvent) (h : ModalInv s) :
    ModalInv (modalStep s e) := by
  obtain ⟨h1, h2⟩ := h
  cases e with
  | openEffect propsOk =>
    simp only [modalStep]
    split
    · exact ⟨fun _ => rfl, fun _ => rfl⟩
    · exact ⟨h1, h2⟩
  | overviewChunk o =>
    simp only [modalStep]
    split
    · next hsub => exact ⟨fun _ => hsub, fun hb => h2 hb⟩
    · exact ⟨h1, h2⟩
  | overviewObjectEffect =>
    simp only [modalStep]
    split
    · next o ho =>
      split
      · exact ⟨fun _ => h1 (by simp [ho]), fun _ => h1 (by simp [ho])⟩
      · exact ⟨h1, h2⟩
    · exact ⟨h1, h2⟩
  | breakdownChunk b =>
    simp only [modalStep]
    split
    · exact ⟨h1, h2⟩
    · exact ⟨h1, h2⟩
  | breakdownObjectEffect =>
    simp only [modalStep]
    split
    · next b hb =>
      split
      · exact ⟨h1, h2⟩
      · exact ⟨h1, h2⟩
    · exact ⟨h1, h2⟩

/-- The modal invariant holds after any event sequence from any state
satisfying it. -/
theorem modalInv_foldl (evs : List ModalEvent) (s : ModalState) (h : ModalInv s) :
    ModalInv (evs.foldl modalStep s) := by
  induction evs generalizing s with
  | nil => exact h
  | cons e rest ih => exact ih _ (modalInv_step s e h)

/-- Claim C2: the weekly-breakdown call never happens before an overview
exists. generateWeeklyBreakdown is a no-op (no state change, no database
write) when projectOverview is null; in the planning modal the breakdown
request is submitted only by the effect that sees an overview object with a
truthy project_type while the step is "overview"; and in every modal run, a
submitted breakdown request implies an already submitted overview request. -/
theorem breakdown_call_after_overview_C2 :
    (∀ (st : PlanState) (pid : String) (isReplay : Bool)
        (resp : HttpResult WeeklyBreakdownDoc)
        (fetchCur : HttpResult (Option MasterPlanVal)) (ts now : Nat),
      st.projectOverview = none →
      generateWeeklyBreakdown st pid isReplay resp fetchCur ts now = (st, [])) ∧
    (∀ (s : ModalState) (e : ModalEvent),
      (modalStep s e).breakdownSubmitted = true →
      s.breakdownSubmitted = false →
      e = .overviewObjectEffect ∧
      ∃ o, s.overviewObj = some o ∧ jsTruthyStr o.project_type = true ∧
        s.step = .overview) ∧
    (∀ evs : List ModalEvent,
      (runModal evs).breakdownSubmitted = true →
      (runModal evs).overviewSubmitted = true) := by
  refine ⟨?_, ?_, ?_⟩
  · intro st pid isReplay resp fetchCur ts now h
    simp [generateWeeklyBreakdown, h]
  · intro s e hafter hbefore
    cases e with
    | openEffect propsOk =>
      exfalso
      simp only [modalStep] at hafter
      split at hafter <;> simp_all
    | overviewChunk o =>
      exfalso
      simp only [modalStep] at hafter
      split at hafter <;> simp_all
    | overviewObjectEffect =>
      refine ⟨rfl, ?_⟩
      simp only [modalStep] at hafter
      split at hafter
      · next o ho =>
        split at hafter
        · next hcond =>
          simp only [Bool.and_eq_true, beq_iff_eq] at hcond
          exact ⟨o, ho, hcond.1, hcond.2⟩
        · simp_all
      · simp_all
    | breakdownChunk b =>
      exfalso
      simp only [modalStep] at hafter
      split at hafter <;> simp_all
    | breakdownObjectEffect =>
      exfalso
      simp only [modalStep] at hafter
      split at hafter
      · split at hafter <;> simp_all
      · simp_all
  · intro evs h
    exact (modalInv_foldl evs initModal modalInv_init).2 h

/-- Claim C3: for both generation steps the database update is issued only
on an ok LLM response, and on a failing response the state records the error
message, resets the hasGenerated flag so the call can be retried, and for
the breakdown step returns the planning step to "overview-review". -/
theorem generation_write_after_ok_and_retry_C3 :
    (∀ (st : PlanState) (mp : Option MasterPlanVal) (pid : String)
        (isReplay : Bool) (resp : HttpResult Overview) (now : Nat),
      (generateProjectOverview st mp pid isReplay resp now).2 ≠ [] →
      ∃ o, resp = .ok o) ∧
    (∀ (st : PlanState) (mp : Option MasterPlanVal) (pid : String)
        (isReplay : Bool) (now : Nat),
      ((!isReplay && st.hasGeneratedOverview) || st.isLoading) = false →
      (!isReplay && mpNonEmptyObject mp && mpValidData mp) = false →
      (generateProjectOverview st mp pid isReplay .notOk now).2 = [] ∧
      (generateProjectOverview st mp pid isReplay .notOk now).1.error =
        some "Failed to generate project overview" ∧
      (generateProjectOverview st mp pid isReplay .notOk now).1.hasGeneratedOverview =
        false) ∧
    (∀ (st : PlanState) (pid : String) (isReplay : Bool)
        (resp : HttpResult WeeklyBreakdownDoc)
        (fetchCur : HttpResult (Option MasterPlanVal)) (ts now : Nat),
      (generateWeeklyBreakdown st pid isReplay resp fetchCur ts now).2 ≠ [] →
      ∃ b, resp = .ok b) ∧
    (∀ (st : PlanState) (ov : Overview) (pid : String) (isReplay : Bool)
        (fetchCur : HttpResult (Option MasterPlanVal)) (ts now : Nat),
      st.projectOverview = some ov →
      ((!isReplay && st.hasGeneratedBreakdown) || st.isLoading) = false →
      (generateWeeklyBreakdown st pid isReplay .notOk fetchCur ts now).2 = [] ∧
      (generateWeeklyBreakdown st pid isReplay .notOk fetchCur ts now).1.error =
        some "Failed to generate weekly breakdown" ∧
      (generateWeeklyBreakdown st pid isReplay .notOk fetchCur ts now).1.hasGeneratedBreakdown =
        false ∧
      (generateWeeklyBreakdown st pid isReplay .notOk fetchCur ts now).1.planningStep =
        .overviewReview) := by
  refine ⟨?_, ?_, ?_, ?_⟩
  · intro st mp pid isReplay resp now h
    simp only [generateProjectOverview] at h
    split at h
    · simp at h
    · split at h
      · simp at h
      · cases resp with
        | ok o => exact ⟨o, rfl⟩
        | notOk => simp at h
  · intro st mp pid isReplay now h1 h2
    simp [generateProjectOverview, h1, h2]
  · intro st pid isReplay resp fetchCur ts now h
    simp only [generateWeeklyBreakdown] at h
    split at h
    · simp at h
    · split at h
      · simp at h
      · cases resp with
        | ok b => exact ⟨b, rfl⟩
        | notOk => simp at h
  · intro st ov pid isReplay fetchCur ts now hov hguard
    simp [generateWeeklyBreakdown, hov, hguard]

/-- Claim C4: after a successful weekly-breakdown step the issued projects
update persists the merged master plan: the previously stored overview and
overview_generated_at are preserved, and the new breakdown, a
breakdown_generated_at timestamp and complete = true are added, so the
completed record holds both documents. -/
theorem master_plan_merge_on_breakdown_C4 (st : PlanState) (ov o : Overview)
    (pid : String) (isReplay : Bool) (b : WeeklyBreakdownDoc)
    (cur : MasterPlanVal) (ts now : Nat)
    (hov : st.projectOverview = some ov)
    (hguard : ((!isReplay && st.hasGeneratedBreakdown) || st.isLoading) = false)
    (hcur : cur.overview = some o) :
    ∃ u w,
      (generateWeeklyBreakdown st pid isReplay (.ok b) (.ok (some cur)) ts now).2 =
        [u] ∧
      u.master_plan = some w ∧
      w.overview = some o ∧
      w.overview_generated_at = cur.overview_generated_at ∧
      w.breakdown = some b ∧
      w.breakdown_generated_at = some now ∧
      w.complete = some true := by
  refine
    ⟨{ idEq := pid
       master_plan := some
         { cur with
             breakdown := some b
             breakdown_generated_at := some now
             complete := some true }
       project_type := none
       difficulty_level := none
       duration_weeks := some st.editableDuration
       learning_goal := none
       status := some "planning"
       updated_at := some now
       target_concepts := some (ov.target_concepts.getD [])
       total_sessions := some ts
       milestones_reached := some (milestonesReachedOf b) },
     { cur with
         breakdown := some b
         breakdown_generated_at := some now
         complete := some true },
     ?_, rfl, hcur, rfl, rfl, rfl, rfl⟩
  simp [generateWeeklyBreakdown, hov, hguard]

/-- Instantiation of the C4 statement at concrete inputs. -/
theorem master_plan_merge_on_breakdown_C4_witness :
    ∃ u w,
      (generateWeeklyBreakdown samplePlanState "p1" false (.ok sampleBreakdownDoc)
          (.ok (some sampleCur)) 6 7).2 = [u] ∧
      u.master_plan = some w ∧
      w.overview = some sampleOverview ∧
      w.overview_generated_at = sampleCur.overview_generated_at ∧
      w.breakdown = some sampleBreakdownDoc ∧
      w.breakdown_generated_at = some 7 ∧
      w.complete = some true :=
  master_plan_merge_on_breakdown_C4 samplePlanState sampleOverview sampleOverview
    "p1" false sampleBreakdownDoc sampleCur 6 7 rfl rfl rfl

/-- Claim C5: createWeeklyPlansFromMasterPlan inserts exactly one row per
breakdown week, carrying the week number, title, main goal (as description
and sole learning objective), concepts, deliverables, attempt_number 1,
progress_percentage 0, estimated_sessions defaulting to 3 when absent, the
difficulty from the master plan, and status "current" for week 1 and
"locked" otherwise. -/
theorem createWeeklyPlans_rows_C5 (uid projectId : String)
    (masterPlan : MasterPlanDoc)
    (hs : ∀ w ∈ masterPlan.weekly_breakdown, w.estimated_sessions ≠ some 0) :
    createWeeklyPlansFromMasterPlan (some uid) projectId masterPlan =
      .ok (masterPlan.weekly_breakdown.map fun w =>
        { project_id := projectId
          week_number := w.week
          week_title := w.title
          week_description := w.main_goal
          learning_objectives := [w.main_goal]
          target_concepts := w.concepts.getD []
          attempt_number := 1
          difficulty_level := masterPlan.difficulty_assessment
          status := if w.week = 1 then "current" else "locked"
          progress_percentage := 0
          estimated_sessions := w.estimated_sessions.getD 3
          goals :=
            { main_goal := w.main_goal
              concepts := w.concepts.getD []
              deliverables := w.deliverables.getD [] }
          deliverables := w.deliverables.getD [] }) := by
  have hrun : createWeeklyPlansFromMasterPlan (some uid) projectId masterPlan =
      .ok (masterPlan.weekly_breakdown.map
        (weekToInsert projectId masterPlan.difficulty_assessment)) := rfl
  rw [hrun]
  congr 1
  apply List.map_congr_left
  intro w hw
  have h0 := hs w hw
  unfold weekToInsert
  cases hes : w.estimated_sessions with
  | none => simp [jsOrNat, hes]
  | some n =>
    have hn : ¬n = 0 := by
      intro h
      exact h0 (h ▸ hes)
    simp [jsOrNat, hes, hn]

/-- Instantiation of the C5 statement at concrete inputs. -/
theorem createWeeklyPlans_rows_C5_witness :
    createWeeklyPlansFromMasterPlan (some "u1") "p1" sampleMasterPlanDoc =
      .ok (sampleMasterPlanDoc.weekly_breakdown.map fun w =>
        { project_id := "p1"
          week_number := w.week
          week_title := w.title
          week_description := w.main_goal
          learning_objectives := [w.main_goal]
          target_concepts := w.concepts.getD []
          attempt_number := 1
          difficulty_level := sampleMasterPlanDoc.difficulty_assessment
          status := if w.week = 1 then "current" else "locked"
          progress_percentage := 0
          estimated_sessions := w.estimated_sessions.getD 3
          goals :=
            { main_goal := w.main_goal
              concepts := w.concepts.getD []
              deliverables := w.deliverables.getD [] }
          deliverables := w.deliverables.getD [] }) :=
  createWeeklyPlans_rows_C5 "u1" "p1" sampleMasterPlanDoc (by decide)

/-- Claim C6: deleteProject removes the project optimistically and is atomic
with respect to failure. It first sets the local list to the old list with
the given id filtered out; on a remote error it sets the local list back to
exactly the previous contents and returns the error message; on success the
removal stands and the error field of the result is null. -/
theorem deleteProject_optimistic_atomic_C6 (uid pid : String)
    (projects : List ProjectRow) :
    (deleteProject (some uid) projects pid none =
      .ok ([projects.filter fun p => !(p.id == pid)],
        { idEq := pid, userIdEq := uid }, none)) ∧
    (∀ e, deleteProject (some uid) projects pid (some e) =
      .ok ([projects.filter fun p => !(p.id == pid), projects],
        { idEq := pid, userIdEq := uid }, some e)) :=
  ⟨rfl, fun _ => rfl⟩

/-- Claim C7: the fixed response schemas bound every generated plan. The
overview and master-plan schemas force recommended_duration into 1..4; the
weekly-breakdown schema forces 1 to 4 weeks, each with a week number in
1..4, 2 to 5 concepts, 1 to 4 deliverables and estimated_sessions in 1..7,
plus 3 to 6 success_criteria entries. -/
theorem schemas_bound_generated_plans_C7 :
    (∀ o : Overview, rubyProjectOverviewSchema o = true →
      1 ≤ o.recommended_duration ∧ o.recommended_duration ≤ 4) ∧
    (∀ m : MasterPlanDoc, rubyMasterPlanSchema m = true →
      1 ≤ m.recommended_duration ∧ m.recommended_duration ≤ 4) ∧
    (∀ b : WeeklyBreakdownDoc, rubyWeeklyBreakdownSchema b = true →
      (1 ≤ b.weekly_breakdown.length ∧ b.weekly_breakdown.length ≤ 4) ∧
      (3 ≤ b.success_criteria.length ∧ b.success_criteria.length ≤ 6) ∧
      ∀ w ∈ b.weekly_breakdown,
        (1 ≤ w.week ∧ w.week ≤ 4) ∧
        (∃ c, w.concepts = some c ∧ 2 ≤ c.length ∧ c.length ≤ 5) ∧
        (∃ d, w.deliverables = some d ∧ 1 ≤ d.length ∧ d.length ≤ 4) ∧
        (∃ n, w.estimated_sessions = some n ∧ 1 ≤ n ∧ n ≤ 7)) := by
  refine ⟨?_, ?_, ?_⟩
  · intro o h
    simp only [rubyProjectOverviewSchema, Bool.and_eq_true, decide_eq_true_eq] at h
    exact h.1.2
  · intro m h
    simp only [rubyMasterPlanSchema, Bool.and_eq_true, decide_eq_true_eq] at h
    exact h.1.1.2
  · intro b h
    simp only [rubyWeeklyBreakdownSchema, Bool.and_eq_true, decide_eq_true_eq,
      List.all_eq_true] at h
    refine ⟨h.1.1, h.2, ?_⟩
    intro w hw
    have hwk := h.1.2 w hw
    simp only [breakdownWeekCheck, Bool.and_eq_true, decide_eq_true_eq] at hwk
    refine ⟨hwk.1.1.1, ?_, ?_, ?_⟩
    · rcases hc : w.concepts with _ | c
      · rw [hc] at hwk
        simp at hwk
      · rw [hc] at hwk
        refine ⟨c, rfl, ?_⟩
        simpa using hwk.1.1.2
    · rcases hd : w.deliverables with _ | d
      · rw [hd] at hwk
        simp at hwk
      · rw [hd] at hwk
        refine ⟨d, rfl, ?_⟩
        simpa using hwk.1.2
    · rcases he : w.estimated_sessions with _ | n
      · rw [he] at hwk
        simp at hwk
      · rw [he] at hwk
        refine ⟨n, rfl, ?_⟩
        simpa using hwk.2

/-- Claim C8 as stated is false: a request body whose projectName is present
but is the empty string is answered with status 400 even though none of the
three fields is missing. -/
theorem route400_on_present_empty_field_C8 :
    (generateWeeklyBreakdownPOST (some emptyNameRequest)
        (some sampleBreakdownDoc)).status = 400 ∧
    emptyNameRequest.projectName ≠ none ∧
    emptyNameRequest.projectDescription ≠ none ∧
    emptyNameRequest.projectOverview ≠ none := by
  refine ⟨rfl, ?_, ?_, ?_⟩ <;> simp [emptyNameRequest]

/-- Claim C8, amended: the route answers 400 exactly when projectName,
projectDescription or projectOverview is missing from the request body or
is present but falsy (an empty string); a body that fails to parse or any
failure of the forwarded LLM call yields a 500 JSON error; otherwise the
route returns the structured object, which conforms to the weekly-breakdown
schema. -/
theorem route_status_partition_C8 :
    (∀ llmRaw, generateWeeklyBreakdownPOST none llmRaw =
      { status := 500, body := .errMsg "Failed to generate weekly breakdown" }) ∧
    (∀ b llmRaw,
      (generateWeeklyBreakdownPOST (some b) llmRaw).status = 400 ↔
        ¬(jsTruthyStr b.projectName = true ∧
          jsTruthyStr b.projectDescription = true ∧
          b.projectOverview.isSome = true)) ∧
    (∀ b llmRaw,
      jsTruthyStr b.projectName = true →
      jsTruthyStr b.projectDescription = true →
      b.projectOverview.isSome = true →
      (generateObjectResult llmRaw = .error () →
        generateWeeklyBreakdownPOST (some b) llmRaw =
          { status := 500, body := .errMsg "Failed to generate weekly breakdown" }) ∧
      (∀ d, generateObjectResult llmRaw = .ok d →
        generateWeeklyBreakdownPOST (some b) llmRaw =
          { status := 200, body := .doc d } ∧
        rubyWeeklyBreakdownSchema d = true)) := by
  refine ⟨fun _ => rfl, ?_, ?_⟩
  · intro b llmRaw
    constructor
    · intro h400
      intro hcon
      obtain ⟨h1, h2, h3⟩ := hcon
      simp only [generateWeeklyBreakdownPOST, h1, h2, h3, Bool.not_true,
        Bool.or_self, Bool.or_false, if_neg] at h400
      rcases hg : generateObjectResult llmRaw with e | d <;>
        rw [hg] at h400 <;> simp at h400
    · intro hneg
      have hb : (!jsTruthyStr b.projectName || !jsTruthyStr b.projectDescription ||
          !b.projectOverview.isSome) = true := by
        by_cases h1 : jsTruthyStr b.projectName = true
        · by_cases h2 : jsTruthyStr b.projectDescription = true
          · by_cases h3 : b.projectOverview.isSome = true
            · exact absurd ⟨h1, h2, h3⟩ hneg
            · rw [Bool.not_eq_true] at h3
              simp [h3]
          · rw [Bool.not_eq_true] at h2
            simp [h2]
        · rw [Bool.not_eq_true] at h1
          simp [h1]
      simp only [generateWeeklyBreakdownPOST]
      rw [if_pos hb]
  · intro b llmRaw h1 h2 h3
    constructor
    · intro herr
      simp [generateWeeklyBreakdownPOST, h1, h2, h3, herr]
    · intro d hok
      have hd : rubyWeeklyBreakdownSchema d = true := by
        rcases hraw : llmRaw with _ | d'
        · rw [hraw] at hok
          simp [generateObjectResult] at hok
        · rw [hraw] at hok
          simp only [generateObjectResult] at hok
          split at hok
          · next hvalid =>
            simp only [Except.ok.injEq] at hok
            exact hok ▸ hvalid
          · simp at hok
      refine ⟨?_, hd⟩
      simp [generateWeeklyBreakdownPOST, h1, h2, h3, hok]

/-- Claim C9: every project mutation of the useProjects hook is scoped to
the authenticated user. updateProject and deleteProject filter the remote
query by both the project id and the user id, a row of another user is
untouched by the resulting queries, and all three mutations throw without a
signed-in user. -/
theorem project_mutations_user_scoped_C9 :
    (∀ (uid pid : String) (upd : List (String × String)),
      updateProject (some uid) pid upd =
        .ok ({ idEq := pid, userIdEq := uid }, upd)) ∧
    (∀ (uid : String) (projects : List ProjectRow) (pid : String)
        (re : Option String), ∃ calls err,
      deleteProject (some uid) projects pid re =
        .ok (calls, { idEq := pid, userIdEq := uid }, err)) ∧
    (∀ (db : List ProjectRow) (q : ProjectsFilter) (f : ProjectRow → ProjectRow)
        (r : ProjectRow), r ∈ db → r.user_id ≠ q.userIdEq →
      r ∈ runDeleteQuery db q ∧ r ∈ runUpdateQuery db q f) ∧
    (∀ (pid : String) (upd : List (String × String)),
      updateProject none pid upd =
        .error "User must be authenticated to update projects") ∧
    (∀ (projects : List ProjectRow) (pid : String) (re : Option String),
      deleteProject none projects pid re =
        .error "User must be authenticated to delete projects") ∧
    (∀ pd : ProjectData,
      createProject none pd =
        .error "User must be authenticated to create projects") := by
  refine ⟨fun _ _ _ => rfl, ?_, ?_, fun _ _ => rfl, fun _ _ _ => rfl, fun _ => rfl⟩
  · intro uid projects pid re
    rcases re with _ | e
    · exact ⟨[projects.filter fun p => !(p.id == pid)], none, rfl⟩
    · exact ⟨[projects.filter fun p => !(p.id == pid), projects], some e, rfl⟩
  · intro db q f r hr hne
    constructor
    · refine List.mem_filter.mpr ⟨hr, ?_⟩
      simp [hne]
    · refine List.mem_map.mpr ⟨r, hr, ?_⟩
      simp [hne]

/-- An element of a list of naturals is at most maxOrder of the list. -/
theorem le_maxOrder (o : Nat) (l : List Nat) (h : o ∈ l) : o ≤ maxOrder l := by
  induction l with
  | nil => cases h
  | cons a t ih =>
    rcases List.mem_cons.mp h with rfl | ht
    · exact le_max_left _ _
    · exact le_trans (ih ht) (le_max_right _ _)

/-- For a non-empty list of naturals, maxOrder is one of its elements. -/
theorem maxOrder_mem (l : List Nat) (h : l ≠ []) : maxOrder l ∈ l := by
  induction l with
  | nil => exact absurd rfl h
  | cons a t ih =>
    rcases ht : t with _ | ⟨b, t'⟩
    · simp [maxOrder]
    · rw [← ht]
      have htne : t ≠ [] := by simp [ht]
      rcases le_total (maxOrder t) a with hle | hle
      · have : maxOrder (a :: t) = a := max_eq_left hle
        rw [this]
        exact List.mem_cons_self a t
      · have : maxOrder (a :: t) = maxOrder t := max_eq_right hle
        rw [this]
        exact List.mem_cons_of_mem a (ih htne)

/-- Claim C10: sendMessage and addMessage each assign the new message an
order equal to the highest existing order of the conversation plus one, or
1 for an empty conversation, so orders are strictly increasing, and
addMessage writes the assigned order back as total_messages. -/
theorem message_order_increasing_C10 :
    (∀ orders : List Nat, orders ≠ [] →
      sendMessageOrder orders = maxOrder orders + 1 ∧ maxOrder orders ∈ orders) ∧
    sendMessageOrder [] = 1 ∧
    (∀ (orders : List Nat) (o : Nat), o ∈ orders → o < sendMessageOrder orders) ∧
    (∀ (conv : GoalConversation) (orders : List Nat), ∃ n,
      addMessage (some conv) orders = .ok (n, n) ∧
      (orders = [] → n = 1) ∧
      (orders ≠ [] → n = maxOrder orders + 1) ∧
      ∀ o ∈ orders, o < n) := by
  have hsend : ∀ orders : List Nat, orders ≠ [] →
      sendMessageOrder orders = maxOrder orders + 1 := by
    intro orders h
    rcases orders with _ | ⟨a, t⟩
    · exact absurd rfl h
    · rfl
  refine ⟨?_, rfl, ?_, ?_⟩
  · intro orders h
    exact ⟨hsend orders h, maxOrder_mem orders h⟩
  · intro orders o ho
    have hne : orders ≠ [] := by
      intro h
      rw [h] at ho
      cases ho
    rw [hsend orders hne]
    exact Nat.lt_succ_of_le (le_maxOrder o orders ho)
  · intro conv orders
    rcases horders : orders with _ | ⟨a, t⟩
    · exact ⟨1, rfl, fun _ => rfl, fun h => absurd rfl h, by simp⟩
    · refine ⟨maxOrder (a :: t) + 1, rfl, by simp, fun _ => rfl, ?_⟩
      intro o ho
      exact Nat.lt_succ_of_le (le_maxOrder o (a :: t) ho)

end Ruby
